import Mathlib

/-!
Verification of the deep-research-agent pipeline (src/deep_research_flow.py,
src/utils.py, src/state.py, src/config.py, src/main.py) against its
natural-language specification.

Strings are modelled as `List Char` where character-level indexing matters
(Python `str.find`, `str.rfind`, slicing, `str.strip`), with `String`
wrappers at the interfaces.  Fallible Python code is modelled with
`Except`/`Option`; an `Except.error` models an uncaught Python exception
propagating out of the modelled scope.
-/

namespace DeepResearch

/-! ## Python string primitives (character-level semantics) -/

/-- Characters stripped by Python `str.strip()` (the ASCII whitespace set:
space, tab, newline, carriage return, vertical tab, form feed). -/
def pyWS (c : Char) : Bool :=
  c = ' ' || c = '\t' || c = '\n' || c = '\r' || c = Char.ofNat 11 || c = Char.ofNat 12

/-- Drop leading Python whitespace. -/
def stripL (cs : List Char) : List Char := cs.dropWhile pyWS

/-- Drop trailing Python whitespace. -/
def stripR (cs : List Char) : List Char := (cs.reverse.dropWhile pyWS).reverse

/-- Python `str.strip()` on a character list. -/
def pyStripL (cs : List Char) : List Char := stripR (stripL cs)

/-- Python `str.strip()`. -/
def pyStrip (s : String) : String := String.mk (pyStripL s.data)

/-- Python `str.split("\n")`: split on newline; always returns at least one
(possibly empty) chunk, like Python `split` with an explicit separator. -/
def splitNL : List Char → List (List Char)
  | [] => [[]]
  | c :: rest =>
    if c = '\n' then [] :: splitNL rest
    else
      match splitNL rest with
      | [] => [[c]]
      | l :: ls => (c :: l) :: ls

/-- Python `"\n".join(lines)`. -/
def joinNL : List (List Char) → List Char
  | [] => []
  | [l] => l
  | l :: l' :: ls => l ++ '\n' :: joinNL (l' :: ls)

/-- Index of the first occurrence of a character (Python `str.find`,
with `none` for Python's `-1`). -/
def findIdx (c : Char) : List Char → Option Nat
  | [] => none
  | x :: xs => if x = c then some 0 else (findIdx c xs).map (· + 1)

/-- Index of the last occurrence of a character (Python `str.rfind`,
with `none` for Python's `-1`). -/
def rfindIdx (c : Char) (cs : List Char) : Option Nat :=
  match findIdx c cs.reverse with
  | some k => some (cs.length - 1 - k)
  | none => none

/-- Python slice `cs[a:b]` for `0 ≤ a ≤ b`. -/
def pySlice (cs : List Char) (a b : Nat) : List Char := (cs.drop a).take (b - a)

/-- Boolean prefix test (Python `str.startswith`). -/
def strStartsWith : List Char → List Char → Bool
  | [], _ => true
  | _ :: _, [] => false
  | p :: ps, c :: cs => p = c && strStartsWith ps cs

/-- The backtick character (0x60). -/
def btick : Char := Char.ofNat 96

/-- The three-backtick markdown fence marker. -/
def fenceChars : List Char := [btick, btick, btick]

/-- Opening brace character. -/
def obr : Char := Char.ofNat 123

/-- Closing brace character. -/
def cbr : Char := Char.ofNat 125

/-- Opening bracket character. -/
def obk : Char := Char.ofNat 91

/-- Closing bracket character. -/
def cbk : Char := Char.ofNat 93

/-! ## `clean_json_response` (src/utils.py lines 131-178) -/

/-- Fence-stripping step of `clean_json_response` (utils.py lines 141-150):
if the stripped content starts with a three-backtick fence, drop the opening
fence line and, when the last line strips to a bare fence, the closing fence
line, and rejoin with newlines. -/
def fence_block_strip (cleaned : List Char) : List Char :=
  if strStartsWith fenceChars cleaned then
    let lines := splitNL cleaned
    let lines :=
      match lines with
      | [] => []
      | l0 :: rest => if strStartsWith fenceChars l0 then rest else l0 :: rest
    let lines :=
      match lines.getLast? with
      | some last => if pyStripL last = fenceChars then lines.dropLast else lines
      | none => lines
    joinNL lines
  else cleaned

/-- Bracket-slicing step of `clean_json_response` (utils.py lines 172-178):
find the last occurrence of the chosen closing character and, when it lies
strictly after the start index, slice inclusively; always re-strip. -/
def brace_slice (cleaned : List Char) (start : Nat) (endChar : Char) : List Char :=
  match rfindIdx endChar cleaned with
  | some e => if start < e then pyStripL (pySlice cleaned start (e + 1)) else pyStripL cleaned
  | none => pyStripL cleaned

/-- Bracket-location step of `clean_json_response` (utils.py lines
155-178): locate the first `\x7b` or `[` (whichever comes first, deciding
the closing character by type) and slice to the last matching close; with
no opening marker at all, return the input as-is. -/
def clean_braces (cleaned : List Char) : List Char :=
  match findIdx obr cleaned, findIdx obk cleaned with
  | none, none => cleaned
  | none, some s => brace_slice cleaned s cbk
  | some s, none => brace_slice cleaned s cbr
  | some sb, some sk =>
    if sb ≤ sk then brace_slice cleaned sb cbr else brace_slice cleaned sk cbk

/-- Core of `clean_json_response` (utils.py lines 131-178) on character
lists: strip, remove a leading/trailing markdown fence, re-strip, then
slice between the outermost JSON markers. -/
def clean_core (content : List Char) : List Char :=
  clean_braces (pyStripL (fence_block_strip (pyStripL content)))

/-- `clean_json_response` (utils.py lines 131-178). -/
def clean_json_response (s : String) : String := String.mk (clean_core s.data)

/-! ## JSON values and a model of Python `json.loads`

The nodes call `json.loads` on cleaned model output; parse failure raises
`json.JSONDecodeError` (a subclass of `ValueError`).  We model parsed JSON
with `JValue` and `json.loads` with a fuel-bounded recursive-descent parser
returning `none` on failure. -/

inductive JValue where
  | jnull : JValue
  | jbool : Bool → JValue
  | jnum : String → JValue
  | jstr : String → JValue
  | jarr : List JValue → JValue
  | jobj : List (String × JValue) → JValue

/-- JSON insignificant whitespace (RFC 8259): space, tab, newline, return. -/
def skipJWS (cs : List Char) : List Char :=
  cs.dropWhile (fun c => c = ' ' || c = '\t' || c = '\n' || c = '\r')

/-- Value of a hexadecimal digit, if any. -/
def hexVal (c : Char) : Option Nat :=
  if '0' ≤ c ∧ c ≤ '9' then some (c.toNat - '0'.toNat)
  else if 'a' ≤ c ∧ c ≤ 'f' then some (c.toNat - 'a'.toNat + 10)
  else if 'A' ≤ c ∧ c ≤ 'F' then some (c.toNat - 'A'.toNat + 10)
  else none

/-- Single-character JSON string escapes. -/
def escChar (c : Char) : Option Char :=
  if c = '"' then some '"'
  else if c = '\\' then some '\\'
  else if c = '/' then some '/'
  else if c = 'b' then some (Char.ofNat 8)
  else if c = 'f' then some (Char.ofNat 12)
  else if c = 'n' then some '\n'
  else if c = 'r' then some '\r'
  else if c = 't' then some '\t'
  else none

/-- Parse the body of a JSON string after the opening quote, returning the
decoded characters and the remainder after the closing quote. -/
def parseStringBody : Nat → List Char → Option (List Char × List Char)
  | 0, _ => none
  | _, [] => none
  | fuel + 1, c :: cs =>
    if c = '"' then some ([], cs)
    else if c = '\\' then
      match cs with
      | [] => none
      | e :: cs' =>
        if e = 'u' then
          match cs' with
          | h1 :: h2 :: h3 :: h4 :: cs'' =>
            match hexVal h1, hexVal h2, hexVal h3, hexVal h4 with
            | some a, some b, some c3, some d =>
              (parseStringBody fuel cs'').map
                (fun p => (Char.ofNat (a * 4096 + b * 256 + c3 * 16 + d) :: p.1, p.2))
            | _, _, _, _ => none
          | _ => none
        else
          match escChar e with
          | some d => (parseStringBody fuel cs').map (fun p => (d :: p.1, p.2))
          | none => none
    else (parseStringBody fuel cs).map (fun p => (c :: p.1, p.2))

/-- True for an ASCII digit. -/
def isDigitCh (c : Char) : Bool := '0' ≤ c && c ≤ '9'

/-- Parse the integer-and-fraction-and-exponent body of a JSON number
(after an optional leading minus sign), returning the lexeme and rest. -/
def parseNumBody (cs : List Char) : Option (List Char × List Char) :=
  let ds := cs.takeWhile isDigitCh
  let rest := cs.dropWhile isDigitCh
  match ds with
  | [] => none
  | d0 :: dtl =>
    if d0 = '0' ∧ dtl ≠ [] then none
    else
      let step1 : Option (List Char × List Char) :=
        match rest with
        | '.' :: r1 =>
          let fs := r1.takeWhile isDigitCh
          if fs = [] then none else some (ds ++ '.' :: fs, r1.dropWhile isDigitCh)
        | _ => some (ds, rest)
      match step1 with
      | none => none
      | some (lex1, r2) =>
        match r2 with
        | e :: r3 =>
          if e = 'e' ∨ e = 'E' then
            let (sgn, r4) :=
              match r3 with
              | s :: r4' => if s = '+' ∨ s = '-' then ([s], r4') else (([] : List Char), r3)
              | [] => ([], r3)
            let es := r4.takeWhile isDigitCh
            if es = [] then none
            else some (lex1 ++ e :: sgn ++ es, r4.dropWhile isDigitCh)
          else some (lex1, r2)
        | [] => some (lex1, r2)

/-- Parse a JSON number including an optional leading minus sign. -/
def parseNumber (cs : List Char) : Option (List Char × List Char) :=
  match cs with
  | '-' :: rest => (parseNumBody rest).map (fun p => ('-' :: p.1, p.2))
  | _ => parseNumBody cs

/-- Recognise a fixed literal tail (for `true`, `false`, `null`). -/
def expectLit (lit : List Char) (cs : List Char) (v : JValue) :
    Option (JValue × List Char) :=
  if strStartsWith lit cs then some (v, cs.drop lit.length) else none

/-- Parse a comma-separated sequence of values up to a closing character,
given a parser for one element; fuel bounds the number of elements. -/
def parseSeq (p : List Char → Option (JValue × List Char)) (closeC : Char) :
    Nat → List Char → Option (List JValue × List Char)
  | 0, _ => none
  | fuel + 1, cs =>
    match p cs with
    | none => none
    | some (v, rest) =>
      match skipJWS rest with
      | c :: r' =>
        if c = ',' then (parseSeq p closeC fuel r').map (fun q => (v :: q.1, q.2))
        else if c = closeC then some ([v], r')
        else none
      | [] => none

/-- Parse a comma-separated sequence of `"key": value` members up to the
closing brace, given a parser for one value. -/
def parseMems (p : List Char → Option (JValue × List Char)) :
    Nat → List Char → Option (List (String × JValue) × List Char)
  | 0, _ => none
  | fuel + 1, cs =>
    match skipJWS cs with
    | q :: rest =>
      if q = '"' then
        match parseStringBody (rest.length + 1) rest with
        | some (key, r1) =>
          match skipJWS r1 with
          | colon :: r2 =>
            if colon = ':' then
              match p r2 with
              | some (v, r3) =>
                match skipJWS r3 with
                | c :: r4 =>
                  if c = ',' then
                    (parseMems p fuel r4).map
                      (fun m => ((String.mk key, v) :: m.1, m.2))
                  else if c = cbr then some ([(String.mk key, v)], r4)
                  else none
                | [] => none
              | none => none
            else none
          | [] => none
        | none => none
      else none
    | [] => none

/-- Fuel-bounded recursive-descent JSON value parser. -/
def parseValue : Nat → List Char → Option (JValue × List Char)
  | 0, _ => none
  | fuel + 1, cs =>
    match skipJWS cs with
    | [] => none
    | c :: rest =>
      if c = '"' then
        (parseStringBody (rest.length + 1) rest).map
          (fun p => (JValue.jstr (String.mk p.1), p.2))
      else if c = obk then
        match skipJWS rest with
        | d :: r' =>
          if d = cbk then some (JValue.jarr [], r')
          else
            (parseSeq (parseValue fuel) cbk (rest.length + 1) rest).map
              (fun q => (JValue.jarr q.1, q.2))
        | [] => none
      else if c = obr then
        match skipJWS rest with
        | d :: r' =>
          if d = cbr then some (JValue.jobj [], r')
          else
            (parseMems (parseValue fuel) (rest.length + 1) rest).map
              (fun m => (JValue.jobj m.1, m.2))
        | [] => none
      else if c = 't' then expectLit ['r', 'u', 'e'] rest (JValue.jbool true)
      else if c = 'f' then expectLit ['a', 'l', 's', 'e'] rest (JValue.jbool false)
      else if c = 'n' then expectLit ['u', 'l', 'l'] rest JValue.jnull
      else
        match parseNumber (c :: rest) with
        | some (lex, r) => some (JValue.jnum (String.mk lex), r)
        | none => none

/-- Model of Python `json.loads`: parse one JSON value and require only
whitespace to remain; `none` models a raised `json.JSONDecodeError`. -/
def json_loads (s : String) : Option JValue :=
  match parseValue (s.data.length + 1) s.data with
  | some (v, rest) => if skipJWS rest = [] then some v else none
  | none => none

/-! ## Python dynamic-value helpers used by the nodes -/

/-- Python exceptions that the modelled code can raise.
`json.JSONDecodeError` is a subclass of `ValueError`, so it is modelled
as `valueError`. -/
inductive PyError where
  | valueError : String → PyError
  | attributeError : String → PyError
  | typeError : String → PyError
deriving DecidableEq

/-- Python `dict.get(key)` on a dict built by `json.loads` (later duplicate
keys overwrite earlier ones, hence the reverse lookup). -/
def dict_get (fields : List (String × JValue)) (key : String) : Option JValue :=
  (fields.reverse.find? (fun kv => kv.1 == key)).map (fun kv => kv.2)

/-- Python iteration `for q in v` over a decoded JSON value: lists yield
their elements, strings their characters, dicts their keys; numbers,
booleans and `None` raise `TypeError`. -/
def pyIter : JValue → Except PyError (List JValue)
  | JValue.jarr xs => Except.ok xs
  | JValue.jstr s => Except.ok (s.data.map (fun c => JValue.jstr (String.mk [c])))
  | JValue.jobj fs => Except.ok (fs.map (fun kv => JValue.jstr kv.1))
  | _ => Except.error (PyError.typeError "object is not iterable")

/-- A single-quote character, used by Python `repr` of strings. -/
def sq : String := String.mk [Char.ofNat 39]

/-- Python `repr` of a decoded JSON value (fuel-bounded over nesting depth;
string escaping inside `repr` is not reproduced). -/
def pyRepr : Nat → JValue → String
  | _, JValue.jnull => "None"
  | _, JValue.jbool b => if b then "True" else "False"
  | _, JValue.jnum lex => lex
  | _, JValue.jstr s => sq ++ s ++ sq
  | 0, JValue.jarr _ => ""
  | 0, JValue.jobj _ => ""
  | fuel + 1, JValue.jarr xs =>
    "[" ++ String.intercalate ", " (xs.map (pyRepr fuel)) ++ "]"
  | fuel + 1, JValue.jobj fs =>
    "\x7b" ++
      String.intercalate ", "
        (fs.map (fun kv => sq ++ kv.1 ++ sq ++ ": " ++ pyRepr fuel kv.2)) ++ "\x7d"

/-- Python `str` of a decoded JSON value: the string itself for strings,
otherwise `repr`. -/
def py_str (fuel : Nat) (v : JValue) : String :=
  match v with
  | JValue.jstr s => s
  | v => pyRepr fuel v

/-- Python falsiness (`if not v`) of a decoded JSON value.  The numeric
case approximates `v == 0` on the common zero lexemes. -/
def py_falsy : JValue → Bool
  | JValue.jnull => true
  | JValue.jbool b => !b
  | JValue.jnum lex => lex = "0" || lex = "-0" || lex = "0.0"
  | JValue.jstr s => s = ""
  | JValue.jarr xs => xs.isEmpty
  | JValue.jobj fs => fs.isEmpty

/-! ## Data model (src/state.py) and graph nodes -/

/-- Conversation messages (langchain `HumanMessage`/`AIMessage`/
`SystemMessage`), reduced to role and content. -/
inductive Msg where
  | human : String → Msg
  | ai : String → Msg
  | system : String → Msg
deriving DecidableEq

/-- Role prefix used by langchain `get_buffer_string`. -/
def msgRole : Msg → String
  | Msg.human _ => "Human"
  | Msg.ai _ => "AI"
  | Msg.system _ => "System"

/-- Content of a message. -/
def msgContent : Msg → String
  | Msg.human c => c
  | Msg.ai c => c
  | Msg.system c => c

/-- langchain `get_buffer_string`: join `"<Role>: <content>"` lines with
newlines; the empty history yields the empty string. -/
def get_buffer_string (msgs : List Msg) : String :=
  String.intercalate "\n" (msgs.map (fun m => msgRole m ++ ": " ++ msgContent m))

/-- Count of `AIMessage` entries in a history (deep_research_flow.py
line 119). -/
def count_ai_messages (msgs : List Msg) : Nat :=
  (msgs.filter (fun m => match m with | Msg.ai _ => true | _ => false)).length

/-- `ResearcherState` (src/state.py lines 43-50), without the unused
message list. -/
structure RState where
  focus : String
  research_questions : List String
  iteration : Nat
  satisfied : Bool
deriving DecidableEq

/-- `ResearchPlan` (src/state.py lines 11-19).  `search_queries` is typed
`List[str]` but `query_generator_node` line 319 assigns the raw decoded
JSON value without validation, so it is modelled as `JValue`. -/
structure ResearchPlan where
  original_query : String
  search_queries : JValue

/-- `RawSource` (src/state.py lines 21-30). -/
structure RawSource where
  url : String
  title : String
  content : String
  snippet : Option String
  retrieved_at : Option String
deriving DecidableEq

/-- `ClarifyWithUser` (src/state.py lines 32-41). -/
structure ClarifyWithUser where
  need_clarification : Bool
  question : String
  verification : String
deriving DecidableEq

/-- Graph nodes of the compiled state machine (deep_research_flow.py),
with `endNode` for langgraph `END`. -/
inductive Node where
  | initNode | clarifier | researcher | query_generator | web_searcher
  | summarizer | evaluator | report | endNode
deriving DecidableEq

/-! ## INIT and CLARIFY (deep_research_flow.py lines 71-160, main.py) -/

/-- `initialize_state` (deep_research_flow.py lines 71-90): the node only
logs the incoming messages and passes the state through unchanged; it
performs no validation, so it never fails — also on an empty history. -/
def initialize_state (msgs : List Msg) : Except PyError (List Msg) :=
  Except.ok msgs

/-- Routing outcome of the clarification node: proceed to the researcher,
or go to `END` emitting the clarifying question as an `AIMessage`. -/
inductive ClarifyRoute where
  | toResearcher : ClarifyRoute
  | toEndWith : String → ClarifyRoute
deriving DecidableEq

/-- `clarification_node` (deep_research_flow.py lines 96-156) after the
model verdict has been parsed: with at least one prior `AIMessage` it
routes straight to the researcher without invoking the model (lines
118-124); otherwise it routes on the parsed `ClarifyWithUser` verdict. -/
def clarification_node (msgs : List Msg) (verdict : ClarifyWithUser) : ClarifyRoute :=
  if 0 < count_ai_messages msgs then ClarifyRoute.toResearcher
  else if verdict.need_clarification then ClarifyRoute.toEndWith verdict.question
  else ClarifyRoute.toResearcher

/-- CLI outcome of `main` (main.py lines 90-168):
a printed report (exit 0), a `ValueError` surfaced as a configuration
error (exit 1), or any other exception surfaced as an unexpected error
(exit 1). -/
inductive CliOutcome where
  | success : String → CliOutcome
  | configError : String → CliOutcome
  | unexpectedError : String → CliOutcome
deriving DecidableEq

/-- Exception handling of `main` (main.py lines 156-168): `ValueError`
(which includes `json.JSONDecodeError`) is reported as a configuration
error; any other exception as an unexpected error; no partial report is
produced on either path. -/
def main_handle (r : Except PyError String) : CliOutcome :=
  match r with
  | Except.ok report => CliOutcome.success report
  | Except.error (PyError.valueError m) => CliOutcome.configError m
  | Except.error (PyError.attributeError m) => CliOutcome.unexpectedError m
  | Except.error (PyError.typeError m) => CliOutcome.unexpectedError m

/-! ## PLAN: researcher_node (deep_research_flow.py lines 162-271) -/

/-- Research-brief extraction of `researcher_node` (lines 179-187): the
brief is `get_buffer_string(messages)`; an empty brief raises
`ValueError("No research brief provided")`. -/
def researcher_brief (msgs : List Msg) : Except PyError String :=
  let b := get_buffer_string msgs
  if b = "" then Except.error (PyError.valueError "No research brief provided")
  else Except.ok b

/-- The three generic placeholder questions of the planner fallback
(lines 224-228). -/
def planner_fallback_questions : List String :=
  ["What are the main aspects to research?",
   "What are the key findings?",
   "What conclusions can be drawn?"]

/-- The fallback data structure of the planner (lines 222-229):
focus is the brief truncated to 200 characters, questions are the three
generic placeholders. -/
def researcher_fallback_data (brief : List Char) : JValue :=
  JValue.jobj
    [("focus", JValue.jstr (String.mk (brief.take 200))),
     ("questions", JValue.jarr (planner_fallback_questions.map JValue.jstr))]

/-- Python `re.search(r'\x7b.*\x7d', s, re.DOTALL)` (line 215): the greedy
match runs from the first opening brace to the last closing brace, and
exists exactly when the first `\x7b` lies before the last `\x7d`. -/
def regex_brace_match (cs : List Char) : Option (List Char) :=
  match findIdx obr cs, rfindIdx cbr cs with
  | some i, some j => if i < j then some (pySlice cs i (j + 1)) else none
  | _, _ => none

/-- Data-extraction cascade of `researcher_node` (lines 208-229): try
`json.loads` on the cleaned content; on `JSONDecodeError` try the regex
brace match and `json.loads` on it — this second `json.loads` is *not*
wrapped in a `try`, so its failure propagates out of the node; only when
the regex finds no match does the fallback structure apply. -/
def researcher_extract_data (cleaned : String) (brief : List Char) :
    Except PyError JValue :=
  match json_loads cleaned with
  | some v => Except.ok v
  | none =>
    match regex_brace_match cleaned.data with
    | some m =>
      match json_loads (String.mk m) with
      | some v => Except.ok v
      | none => Except.error (PyError.valueError "json.JSONDecodeError")
    | none => Except.ok (researcher_fallback_data brief)

/-- Question coercion of `researcher_node` (lines 236-241):
`q.get("question", q.get("text", str(q)))` for dict entries, `str(q)`
otherwise. -/
def coerce_question (fuel : Nat) (q : JValue) : JValue :=
  match q with
  | JValue.jobj fs =>
    (match dict_get fs "question" with
     | some v => v
     | none =>
       match dict_get fs "text" with
       | some v => v
       | none => JValue.jstr (py_str fuel (JValue.jobj fs)))
  | v => JValue.jstr (py_str fuel v)

/-- Focus/questions extraction of `researcher_node` (lines 232-241):
`data.get("focus", research_brief)` and `data.get("questions", [])` with
question coercion; `data.get` on a non-dict raises `AttributeError` and
iterating a non-iterable `questions` value raises `TypeError`. -/
def researcher_focus_questions (fuel : Nat) (data : JValue) (brief : List Char) :
    Except PyError (JValue × List JValue) :=
  match data with
  | JValue.jobj fs =>
    (let focus := (dict_get fs "focus").getD (JValue.jstr (String.mk brief))
     let questionsRaw := (dict_get fs "questions").getD (JValue.jarr [])
     match pyIter questionsRaw with
     | Except.error e => Except.error e
     | Except.ok qs => Except.ok (focus, qs.map (coerce_question fuel)))
  | _ => Except.error (PyError.attributeError "no attribute get")

/-- Planning-stage parse of `researcher_node` (lines 204-241): clean the
model completion, run the extraction cascade, then extract focus and
questions.  An `Except.error` models an exception propagating out of the
node and aborting the graph invocation. -/
def researcher_plan (llmContent : String) (brief : List Char) :
    Except PyError (JValue × List JValue) :=
  let cleaned := clean_json_response llmContent
  match researcher_extract_data cleaned brief with
  | Except.error e => Except.error e
  | Except.ok data => researcher_focus_questions (cleaned.data.length + 1) data brief

/-- Iteration retrieval of `researcher_node` (lines 191-195): the counter
of the existing researcher state, or 0 when none exists. -/
def researcher_iteration (existing : Option RState) : Nat :=
  match existing with
  | some r => r.iteration
  | none => 0

/-- State bookkeeping of `researcher_node` (lines 246-252): the new
researcher state keeps the existing iteration counter unchanged and
resets `satisfied` to `false`. -/
def researcher_node_state (existing : Option RState) (focus : String)
    (qs : List String) : RState :=
  { focus := focus, research_questions := qs,
    iteration := researcher_iteration existing, satisfied := false }

/-! ## GENERATE_QUERIES: query_generator_node (lines 276-332) -/

/-- `query_generator_node` (lines 276-332): with researcher and plan
present, `search_queries = json.loads(clean_json_response(...))` at line
316 has no surrounding `try`, so a parse failure raises
`json.JSONDecodeError` (a `ValueError`) out of the node; on success the
decoded value replaces the plan's queries and control flows to
`web_searcher`.  With researcher or plan missing, the node returns the
existing or a default empty plan, and the static graph edge still leads
to `web_searcher`. -/
def query_generator_node (researcher? : Option RState) (plan? : Option ResearchPlan)
    (llmContent : String) : Except PyError (Node × Option ResearchPlan) :=
  match researcher?, plan? with
  | some _, some p =>
    (match json_loads (clean_json_response llmContent) with
     | none => Except.error (PyError.valueError "json.JSONDecodeError")
     | some v =>
       Except.ok (Node.web_searcher, some { p with search_queries := v }))
  | _, _ =>
    Except.ok (Node.web_searcher,
      some (plan?.getD { original_query := "", search_queries := JValue.jarr [] }))

/-! ## SEARCH: web_searcher_node (lines 338-422) -/

/-- One search result dict as returned by the provider; the node reads
`url`, `title`, `content`, `snippet` with `dict.get` defaults
(lines 399-406). -/
structure SearchResultDict where
  url : Option String
  title : Option String
  content : Option String
  snippet : Option String
deriving DecidableEq

/-- Shape of one provider response (lines 383-396): a dict carrying a
`results` list, a bare list, or an unexpected type which contributes
no results. -/
inductive SearchResponse where
  | asDict : List SearchResultDict → SearchResponse
  | asList : List SearchResultDict → SearchResponse
  | otherType : SearchResponse
deriving DecidableEq

/-- The `results_list` extracted from one provider response
(lines 383-396). -/
def results_list_of : SearchResponse → List SearchResultDict
  | SearchResponse.asDict rs => rs
  | SearchResponse.asList rs => rs
  | SearchResponse.otherType => []

/-- Conversion of one result dict to a `RawSource` (lines 399-406). -/
def to_raw_source (r : SearchResultDict) (now : String) : RawSource :=
  { url := r.url.getD "", title := r.title.getD "", content := r.content.getD "",
    snippet := r.snippet, retrieved_at := some now }

/-- `web_searcher_node` (lines 338-422).  `searchFn` models
`search_tool.invoke` for one query; a per-query failure is caught and that
query contributes nothing (lines 410-411).  A missing plan or an empty
(falsy) query value short-circuits to the summarizer with no sources;
iterating a non-iterable query value raises inside the outer `try`, which
also degrades to an empty source list (lines 420-422).  Always routes to
the summarizer. -/
def web_searcher_node (plan? : Option ResearchPlan)
    (searchFn : JValue → Except String SearchResponse) (now : String) :
    Node × List RawSource :=
  match plan? with
  | none => (Node.summarizer, [])
  | some p =>
    if py_falsy p.search_queries then (Node.summarizer, [])
    else
      match pyIter p.search_queries with
      | Except.error _ => (Node.summarizer, [])
      | Except.ok qs =>
        (Node.summarizer,
         qs.foldl
           (fun acc q =>
             match searchFn q with
             | Except.ok resp =>
               acc ++ (results_list_of resp).map (fun r => to_raw_source r now)
             | Except.error _ => acc)
           [])

/-- Composition of the query-generation stage with the search stage: an
exception raised by query generation propagates and the search stage
never executes. -/
def run_qg_then_search (researcher? : Option RState) (plan? : Option ResearchPlan)
    (llmContent : String) (searchFn : JValue → Except String SearchResponse)
    (now : String) : Except PyError (Node × List RawSource) :=
  match query_generator_node researcher? plan? llmContent with
  | Except.error e => Except.error e
  | Except.ok (_, plan') => Except.ok (web_searcher_node plan' searchFn now)

/-! ## SUMMARIZE: map-reduce summarizer (lines 428-527, prompts.py) -/

/-- Numbered-question block `chr(10).join(f"<i+1>. <q>")` used by the
summarization prompts (lines 443 and 508). -/
def numbered_questions (qs : List String) : String :=
  String.intercalate "\n"
    (qs.enum.map (fun p => toString (p.1 + 1) ++ ". " ++ p.2))

/-- `SINGLE_SOURCE_SUMMARY_PROMPT` (prompts.py lines 49-65) formatted by
`summarize_single_source` (lines 441-447), with the source content capped
to its first 2000 characters. -/
def single_source_prompt (focus : String) (qs : List String) (src : RawSource) :
    String :=
  "Analyze this web source and extract key information relevant to the research.\n\n" ++
  "Research Focus: " ++ focus ++ "\n\n" ++
  "Research Questions:\n" ++ numbered_questions qs ++ "\n\n" ++
  "Source:\n" ++ src.title ++ " (" ++ src.url ++ ")\n" ++
  String.mk (src.content.data.take 2000) ++ "\n\n" ++
  "Extract:\n" ++
  "1. Key findings relevant to the research questions\n" ++
  "2. Important data, statistics, or quotes\n" ++
  "3. Note which questions this source helps answer\n\n" ++
  "Provide a concise summary (3-5 sentences)."

/-- `MULTI_SOURCE_SYNTHESIS_PROMPT` (prompts.py lines 68-84) formatted by
the reduce phase (lines 506-510). -/
def synthesis_prompt (focus : String) (qs : List String) (combined : String) :
    String :=
  "Synthesize these individual source summaries into a comprehensive research summary.\n\n" ++
  "Research Focus: " ++ focus ++ "\n\n" ++
  "Research Questions:\n" ++ numbered_questions qs ++ "\n\n" ++
  "Individual Source Summaries:\n" ++ combined ++ "\n\n" ++
  "Create a comprehensive synthesis that:\n" ++
  "1. Organizes findings by research question\n" ++
  "2. Identifies patterns and themes across sources\n" ++
  "3. Notes contradictions or gaps\n" ++
  "4. Highlights key data and evidence\n\n" ++
  "Provide a well-structured summary."

/-- `summarize_single_source` (lines 428-455).  `llm` models
`summary_model.invoke` on the formatted prompt; any exception inside the
task is caught and converted into the one-line placeholder
`"<title> (Error: could not summarize)\n"`, so the function always
returns a string and never raises. -/
def summarize_single_source (src : RawSource) (focus : String) (qs : List String)
    (llm : String → Except String String) : String :=
  match llm (single_source_prompt focus qs src) with
  | Except.ok content => src.title ++ "\n" ++ content ++ "\n"
  | Except.error _ => src.title ++ " (Error: could not summarize)\n"

/-- Whether the summarization task for one source fails (its model call
raises), determining which placeholder it contributes. -/
def task_failed (llm : String → Except String String) (focus : String)
    (qs : List String) (src : RawSource) : Bool :=
  match llm (single_source_prompt focus qs src) with
  | Except.ok _ => false
  | Except.error _ => true

/-- MAP phase (lines 479-498): one summarization task per source.  The
thread pool completes them in a nondeterministic order; the collected
list observed by the REDUCE phase is some permutation of this list
(quantified in the theorems).  The `try` around `future.result()` never
fires because `summarize_single_source` is total. -/
def map_phase (sources : List RawSource) (focus : String) (qs : List String)
    (llm : String → Except String String) : List String :=
  sources.map (fun s => summarize_single_source s focus qs llm)

/-- `summarizer_node` (lines 457-527).  `collected` is the list of MAP
results in thread-pool completion order; the REDUCE phase joins them with
blank lines and issues one synthesis call.  A missing researcher state
raises `AttributeError` inside the outer `try`, and any reduce-call
failure is likewise caught; both degrade to an empty summary.  Always
routes to the evaluator. -/
def summarizer_node (researcher? : Option RState)
    (reduceLLM : String → Except String String) (collected : List String) :
    Node × String :=
  match researcher? with
  | none => (Node.evaluator, "")
  | some r =>
    let combined := String.intercalate "\n\n" collected
    match reduceLLM (synthesis_prompt r.focus r.research_questions combined) with
    | Except.ok finalSummary => (Node.evaluator, finalSummary)
    | Except.error _ => (Node.evaluator, "")

/-! ## EVALUATE: evaluate_progress_node (lines 533-635) and the loop -/

/-- `evaluate_progress_node` (lines 533-635) for a present researcher
state.  `modelSatisfied` is `bool(data.get("satisfied", False))` after the
verdict-parsing `try`/`except` of lines 574-599, which falls back to
`False` on any parse failure.  The unconditional override of lines 601-604
forces `satisfied = True` when `iteration + 1 >= MAX_ITERATIONS`; the
counter always advances by exactly one (line 613); routing goes to the
report node exactly when satisfied (line 626). -/
def evaluate_progress_node (r : RState) (maxIterations : Nat)
    (modelSatisfied : Bool) : RState × Node :=
  let satisfied := if maxIterations ≤ r.iteration + 1 then true else modelSatisfied
  ({ r with iteration := r.iteration + 1, satisfied := satisfied },
   if satisfied then Node.report else Node.researcher)

/-- Researcher state entering the n-th EVALUATE pass (counting from 0)
when the loop has run that far: pass 0 starts from a fresh researcher
state, and each later pass starts from the researcher node re-run on the
previous evaluation result, which preserves the iteration counter. -/
def state_before_pass (f : String) (qs : List String) (m : Nat)
    (verdicts : Nat → Bool) : Nat → RState
  | 0 => researcher_node_state none f qs
  | n + 1 =>
    researcher_node_state
      (some (evaluate_progress_node (state_before_pass f qs m verdicts n) m
        (verdicts n)).1) f qs

/-- Result (updated researcher state and routing target) of the n-th
EVALUATE pass. -/
def eval_pass (f : String) (qs : List String) (m : Nat) (verdicts : Nat → Bool)
    (n : Nat) : RState × Node :=
  evaluate_progress_node (state_before_pass f qs m verdicts n) m (verdicts n)

/-! ## Shared lemmas about the research loop -/

/-- The researcher state entering pass `n` carries iteration counter `n`. -/
theorem state_before_pass_iteration (f : String) (qs : List String) (m : Nat)
    (verdicts : Nat → Bool) : ∀ n, (state_before_pass f qs m verdicts n).iteration = n := by
  intro n
  induction n with
  | zero => rfl
  | succ k ih =>
    simp [state_before_pass, researcher_node_state, researcher_iteration,
      evaluate_progress_node, ih]

/-- The iteration counter after the n-th EVALUATE pass is `n + 1`. -/
theorem eval_pass_iteration (f : String) (qs : List String) (m : Nat)
    (verdicts : Nat → Bool) (n : Nat) :
    (eval_pass f qs m verdicts n).1.iteration = n + 1 := by
  simp [eval_pass, evaluate_progress_node, state_before_pass_iteration]

/-- Satisfaction after the n-th EVALUATE pass: forced when the budget is
reached, otherwise the model verdict. -/
theorem eval_pass_satisfied (f : String) (qs : List String) (m : Nat)
    (verdicts : Nat → Bool) (n : Nat) :
    (eval_pass f qs m verdicts n).1.satisfied =
      (if m ≤ n + 1 then true else verdicts n) := by
  simp [eval_pass, evaluate_progress_node, state_before_pass_iteration]

/-- The routing of the n-th EVALUATE pass follows its satisfaction flag. -/
theorem eval_pass_route (f : String) (qs : List String) (m : Nat)
    (verdicts : Nat → Bool) (n : Nat) :
    (eval_pass f qs m verdicts n).2 =
      (if (eval_pass f qs m verdicts n).1.satisfied then Node.report
       else Node.researcher) := by
  simp only [eval_pass, evaluate_progress_node]

/-- At pass `m - 1` (for `m ≥ 1`) the override fires and the loop routes
to the report node. -/
theorem loop_reaches_report (f : String) (qs : List String) (m : Nat)
    (hm : 1 ≤ m) (verdicts : Nat → Bool) :
    (eval_pass f qs m verdicts (m - 1)).2 = Node.report := by
  rw [eval_pass_route, eval_pass_satisfied]
  have h : m ≤ (m - 1) + 1 := by omega
  simp [h]

/-! ## Claim theorems -/

/-- C1: Hard termination of the research loop.  For every
`maxIterations ≥ 1` and every sequence of model verdicts, the evaluator
forces `satisfied = true` whenever `iteration + 1 ≥ maxIterations`
(deep_research_flow.py lines 601-604), so regardless of the verdicts the
state machine routes to REPORT no later than the `maxIterations`-th pass
through EVALUATE. -/
theorem hard_termination_of_research_loop
    (m : Nat) (hm : 1 ≤ m) (verdicts : Nat → Bool) (f : String)
    (qs : List String) (r : RState) (v : Bool) (hforce : m ≤ r.iteration + 1) :
    (evaluate_progress_node r m v).1.satisfied = true ∧
    (eval_pass f qs m verdicts (m - 1)).2 = Node.report := by
  constructor
  · simp [evaluate_progress_node, hforce]
  · exact loop_reaches_report f qs m hm verdicts

/-- Witness for C1 at `maxIterations = 3` with an always-unsatisfied
model verdict. -/
theorem hard_termination_of_research_loop_witness :
    (evaluate_progress_node ⟨"f", ["q"], 2, false⟩ 3 false).1.satisfied = true ∧
    (eval_pass "f" ["q"] 3 (fun _ => false) 2).2 = Node.report :=
  hard_termination_of_research_loop 3 (by decide) (fun _ => false) "f" ["q"]
    ⟨"f", ["q"], 2, false⟩ false (by decide)

/-- C2: Monotonic bounded iteration counter.  Every EVALUATE pass
increments the iteration counter by exactly 1 (deep_research_flow.py
line 613), the PLAN stage preserves it unchanged (lines 191-195, 250),
and along any actual run of the loop (all earlier passes unsatisfied)
the counter after the n-th pass equals `n + 1` and — for
`maxIterations ≥ 1` — never exceeds `maxIterations`. -/
theorem iteration_monotonic_and_bounded
    (m : Nat) (hm : 1 ≤ m) (verdicts : Nat → Bool) (f : String)
    (qs : List String) (r : RState) (v : Bool) (n : Nat)
    (hrun : ∀ j, j < n → (eval_pass f qs m verdicts j).1.satisfied = false) :
    (evaluate_progress_node r m v).1.iteration = r.iteration + 1 ∧
    (researcher_node_state (some r) f qs).iteration = r.iteration ∧
    (eval_pass f qs m verdicts n).1.iteration = n + 1 ∧
    (eval_pass f qs m verdicts n).1.iteration ≤ m := by
  refine ⟨rfl, rfl, eval_pass_iteration f qs m verdicts n, ?_⟩
  rw [eval_pass_iteration]
  cases n with
  | zero => omega
  | succ k =>
    have hk := hrun k (Nat.lt_succ_self k)
    rw [eval_pass_satisfied] at hk
    by_contra hgt
    have : m ≤ k + 1 := by omega
    simp [this] at hk

/-- Witness for C2 at `maxIterations = 3`, pass `n = 1`, with an
always-unsatisfied model verdict. -/
theorem iteration_monotonic_and_bounded_witness :
    (evaluate_progress_node ⟨"f", ["q"], 0, false⟩ 3 false).1.iteration = 0 + 1 ∧
    (researcher_node_state (some ⟨"f", ["q"], 0, false⟩) "f" ["q"]).iteration = 0 ∧
    (eval_pass "f" ["q"] 3 (fun _ => false) 1).1.iteration = 1 + 1 ∧
    (eval_pass "f" ["q"] 3 (fun _ => false) 1).1.iteration ≤ 3 :=
  iteration_monotonic_and_bounded 3 (by decide) (fun _ => false) "f" ["q"]
    ⟨"f", ["q"], 0, false⟩ false 1 (by decide)

/-- C8: Clarification is one-shot and first-pass-only.  With at least one
prior `AIMessage` in the history, the clarification node routes to the
researcher (PLAN) without asking again (deep_research_flow.py lines
118-124); on a first pass with a needs-clarification verdict it routes to
`END`, emitting the clarifying question as the session's only output
(lines 143-150). -/
theorem clarification_one_shot_first_pass_only
    (msgs msgs' : List Msg) (v v' : ClarifyWithUser)
    (hai : 0 < count_ai_messages msgs)
    (hfirst : count_ai_messages msgs' = 0)
    (hneed : v'.need_clarification = true) :
    clarification_node msgs v = ClarifyRoute.toResearcher ∧
    clarification_node msgs' v' = ClarifyRoute.toEndWith v'.question := by
  constructor
  · simp [clarification_node, hai]
  · simp [clarification_node, hfirst, hneed]

/-- Witness for C8: a history with one prior assistant turn proceeds to
PLAN; a fresh history with a needs-clarification verdict halts with the
question. -/
theorem clarification_one_shot_first_pass_only_witness :
    clarification_node [Msg.human "Tell me about wars", Msg.ai "Which region?"]
      ⟨true, "again?", ""⟩ = ClarifyRoute.toResearcher ∧
    clarification_node [Msg.human "Tell me about wars"]
      ⟨true, "Which region?", ""⟩ =
      ClarifyRoute.toEndWith (ClarifyWithUser.mk true "Which region?" "").question :=
  clarification_one_shot_first_pass_only
    [Msg.human "Tell me about wars", Msg.ai "Which region?"]
    [Msg.human "Tell me about wars"]
    ⟨true, "again?", ""⟩ ⟨true, "Which region?", ""⟩
    (by decide) (by decide) (by decide)

/-- C10: The per-source summarization task is total.  For every source,
`summarize_single_source` returns a string: a successful model call
yields `"<title>\n<content>\n"` and any exception is converted into the
placeholder `"<title> (Error: could not summarize)\n"`
(deep_research_flow.py lines 439-455); hence the MAP phase contributes
exactly one entry per source and the collected list (any completion
order) has exactly N entries — failed tasks are counted, not excluded. -/
theorem summarize_single_source_total
    (src : RawSource) (focus : String) (qs : List String)
    (llm : String → Except String String) (sources : List RawSource)
    (collected : List String)
    (hperm : collected.Perm (map_phase sources focus qs llm)) :
    (task_failed llm focus qs src = true →
      summarize_single_source src focus qs llm =
        src.title ++ " (Error: could not summarize)\n") ∧
    (∀ out, llm (single_source_prompt focus qs src) = Except.ok out →
      summarize_single_source src focus qs llm = src.title ++ "\n" ++ out ++ "\n") ∧
    (map_phase sources focus qs llm).length = sources.length ∧
    collected.length = sources.length := by
  refine ⟨?_, ?_, ?_, ?_⟩
  · intro hfail
    unfold summarize_single_source
    unfold task_failed at hfail
    cases h : llm (single_source_prompt focus qs src) with
    | ok out => rw [h] at hfail; simp at hfail
    | error e => rfl
  · intro out hout
    unfold summarize_single_source
    rw [hout]
  · simp [map_phase]
  · rw [hperm.length_eq]; simp [map_phase]

/-- Sample sources used by the witnesses of the summarizer claims. -/
def src_a : RawSource :=
  { url := "http://a", title := "A", content := "alpha", snippet := none,
    retrieved_at := none }

/-- Second sample source; its summarization task is made to fail. -/
def src_b : RawSource :=
  { url := "http://b", title := "B", content := "beta", snippet := none,
    retrieved_at := none }

/-- Sample per-source model that fails exactly on the prompt built for
`src_b`. -/
def llm_fail_b : String → Except String String :=
  fun p =>
    if p = single_source_prompt "f" ["q"] src_b then Except.error "APIError"
    else Except.ok "summary-A"

/-- Witness for C10: two sources of which the second task fails; the MAP
phase still yields two entries under a reversed completion order. -/
theorem summarize_single_source_total_witness :
    (task_failed llm_fail_b "f" ["q"] src_b = true →
      summarize_single_source src_b "f" ["q"] llm_fail_b =
        src_b.title ++ " (Error: could not summarize)\n") ∧
    (∀ out, llm_fail_b (single_source_prompt "f" ["q"] src_b) = Except.ok out →
      summarize_single_source src_b "f" ["q"] llm_fail_b =
        src_b.title ++ "\n" ++ out ++ "\n") ∧
    (map_phase [src_a, src_b] "f" ["q"] llm_fail_b).length = [src_a, src_b].length ∧
    [summarize_single_source src_b "f" ["q"] llm_fail_b,
     summarize_single_source src_a "f" ["q"] llm_fail_b].length = [src_a, src_b].length :=
  summarize_single_source_total src_b "f" ["q"] llm_fail_b [src_a, src_b]
    [summarize_single_source src_b "f" ["q"] llm_fail_b,
     summarize_single_source src_a "f" ["q"] llm_fail_b]
    (by simp [map_phase, List.Perm.swap])

/-- C6: Map-reduce completeness under partial failure.  For any list of N
sources of which some tasks fail, every failed task yields the one-line
placeholder instead of propagating its error, every task contributes
(none cancels a sibling and none reaches the caller, so the collected
list still has N entries in every completion order), the REDUCE synthesis
step still runs, and every surviving summary is present in the collected
reduce input, independently of completion order. -/
theorem map_reduce_complete_under_partial_failure
    (sources : List RawSource) (f : String) (qs : List String)
    (llm reduceLLM : String → Except String String) (r : RState)
    (collected : List String)
    (hperm : collected.Perm (map_phase sources f qs llm)) :
    (∀ src ∈ sources, task_failed llm f qs src = true →
      summarize_single_source src f qs llm =
        src.title ++ " (Error: could not summarize)\n") ∧
    collected.length = sources.length ∧
    (∀ src ∈ sources, task_failed llm f qs src = false →
      summarize_single_source src f qs llm ∈ collected) ∧
    (summarizer_node (some r) reduceLLM collected).1 = Node.evaluator := by
  refine ⟨?_, ?_, ?_, ?_⟩
  · intro src _ hfail
    unfold summarize_single_source
    unfold task_failed at hfail
    cases h : llm (single_source_prompt f qs src) with
    | ok out => rw [h] at hfail; simp at hfail
    | error e => rfl
  · rw [hperm.length_eq]; simp [map_phase]
  · intro src hmem _
    have : summarize_single_source src f qs llm ∈ map_phase sources f qs llm :=
      List.mem_map_of_mem _ hmem
    exact hperm.mem_iff.mpr this
  · simp only [summarizer_node]
    cases reduceLLM (synthesis_prompt r.focus r.research_questions
      (String.intercalate "\n\n" collected)) <;> rfl

/-- Witness for C6: two sources with the task for `src_b` forced to fail,
collected in reversed completion order. -/
theorem map_reduce_complete_under_partial_failure_witness :
    (∀ src ∈ [src_a, src_b], task_failed llm_fail_b "f" ["q"] src = true →
      summarize_single_source src "f" ["q"] llm_fail_b =
        src.title ++ " (Error: could not summarize)\n") ∧
    [summarize_single_source src_b "f" ["q"] llm_fail_b,
     summarize_single_source src_a "f" ["q"] llm_fail_b].length =
      [src_a, src_b].length ∧
    (∀ src ∈ [src_a, src_b], task_failed llm_fail_b "f" ["q"] src = false →
      summarize_single_source src "f" ["q"] llm_fail_b ∈
        [summarize_single_source src_b "f" ["q"] llm_fail_b,
         summarize_single_source src_a "f" ["q"] llm_fail_b]) ∧
    (summarizer_node (some ⟨"f", ["q"], 0, false⟩) (fun _ => Except.ok "synth")
      [summarize_single_source src_b "f" ["q"] llm_fail_b,
       summarize_single_source src_a "f" ["q"] llm_fail_b]).1 = Node.evaluator :=
  map_reduce_complete_under_partial_failure [src_a, src_b] "f" ["q"]
    llm_fail_b (fun _ => Except.ok "synth") ⟨"f", ["q"], 0, false⟩
    [summarize_single_source src_b "f" ["q"] llm_fail_b,
     summarize_single_source src_a "f" ["q"] llm_fail_b]
    (by simp [map_phase, List.Perm.swap])

/-- C5: Empty-query degradation.  A plan whose query list is empty makes
the SEARCH stage produce an empty source list, the MAP phase is empty,
the SUMMARIZE stage still runs its REDUCE step over the empty combined
input and returns normally, and — with `maxIterations ≥ 1` — the loop
still reaches REPORT, with no step raising. -/
theorem empty_query_pipeline_degrades
    (p : ResearchPlan) (hq : p.search_queries = JValue.jarr [])
    (searchFn : JValue → Except String SearchResponse) (now : String)
    (r : RState) (reduceLLM : String → Except String String)
    (f : String) (qs : List String) (llm : String → Except String String)
    (m : Nat) (hm : 1 ≤ m) (verdicts : Nat → Bool) :
    web_searcher_node (some p) searchFn now = (Node.summarizer, []) ∧
    map_phase [] f qs llm = [] ∧
    (summarizer_node (some r) reduceLLM []).1 = Node.evaluator ∧
    (∀ out, reduceLLM (synthesis_prompt r.focus r.research_questions "") =
        Except.ok out →
      summarizer_node (some r) reduceLLM [] = (Node.evaluator, out)) ∧
    (eval_pass f qs m verdicts (m - 1)).2 = Node.report := by
  refine ⟨?_, rfl, ?_, ?_, loop_reaches_report f qs m hm verdicts⟩
  · simp [web_searcher_node, hq, py_falsy]
  · simp only [summarizer_node]
    cases reduceLLM (synthesis_prompt r.focus r.research_questions
      (String.intercalate "\n\n" [])) <;> rfl
  · intro out hout
    simp only [summarizer_node]
    have : String.intercalate "\n\n" ([] : List String) = "" := rfl
    rw [this, hout]

/-- Witness for C5 at a concrete empty-query plan, `maxIterations = 3`
and an always-unsatisfied verdict. -/
theorem empty_query_pipeline_degrades_witness :
    web_searcher_node (some ⟨"orig", JValue.jarr []⟩)
      (fun _ => Except.ok (SearchResponse.asList [])) "t0" = (Node.summarizer, []) ∧
    map_phase [] "f" ["q"] (fun _ => Except.ok "s") = [] ∧
    (summarizer_node (some ⟨"f", ["q"], 0, false⟩) (fun _ => Except.ok "synth")
      []).1 = Node.evaluator ∧
    (∀ out,
      (fun (_ : String) => Except.ok (ε := String) "synth")
          (synthesis_prompt (RState.mk "f" ["q"] 0 false).focus
            (RState.mk "f" ["q"] 0 false).research_questions "") = Except.ok out →
      summarizer_node (some ⟨"f", ["q"], 0, false⟩) (fun _ => Except.ok "synth") [] =
        (Node.evaluator, out)) ∧
    (eval_pass "f" ["q"] 3 (fun _ => false) 2).2 = Node.report :=
  empty_query_pipeline_degrades ⟨"orig", JValue.jarr []⟩ rfl
    (fun _ => Except.ok (SearchResponse.asList [])) "t0"
    ⟨"f", ["q"], 0, false⟩ (fun _ => Except.ok "synth") "f" ["q"]
    (fun _ => Except.ok "s") 3 (by decide) (fun _ => false)

/-- C3 counterexample: the completion `"\x7bnot json\x7d"` yields no
structured object, yet the planning stage does not fall back — the regex
finds a brace pair, the second `json.loads` (line 217, not wrapped in a
`try`) raises, and the exception propagates out of the node, aborting the
pipeline instead of degrading. -/
theorem planner_fallback_counterexample :
    researcher_plan "\x7bnot json\x7d" "Some topic".data =
      Except.error (PyError.valueError "json.JSONDecodeError") := rfl

/-- C3 (amended): the planner fallback — focus = brief truncated to 200
characters, questions = the three generic placeholders — applies exactly
when the cleaned completion neither parses as JSON nor contains any
brace pair matched by the regex; on that path the stage returns normally
(does not abort). -/
theorem planner_fallback_on_unextractable
    (llmContent : String) (brief : List Char)
    (hparse : json_loads (clean_json_response llmContent) = none)
    (hregex : regex_brace_match (clean_json_response llmContent).data = none) :
    researcher_plan llmContent brief =
      Except.ok (JValue.jstr (String.mk (brief.take 200)),
        planner_fallback_questions.map JValue.jstr) := by
  unfold researcher_plan researcher_extract_data
  simp only [hparse, hregex]
  simp [researcher_focus_questions, researcher_fallback_data, dict_get,
    pyIter, coerce_question, py_str, planner_fallback_questions, List.find?]

/-- Witness for C3 at a completion with no JSON and no brace pair. -/
theorem planner_fallback_on_unextractable_witness :
    researcher_plan "I could not produce an answer." "Some topic brief".data =
      Except.ok (JValue.jstr (String.mk ("Some topic brief".data.take 200)),
        planner_fallback_questions.map JValue.jstr) :=
  planner_fallback_on_unextractable "I could not produce an answer."
    "Some topic brief".data rfl rfl

/-- Sample researcher state used by the query-generation witnesses. -/
def sample_rstate : RState :=
  { focus := "f", research_questions := ["q"], iteration := 0, satisfied := false }

/-- Sample research plan used by the query-generation witnesses. -/
def sample_plan : ResearchPlan :=
  { original_query := "orig", search_queries := JValue.jarr [] }

/-- C4 counterexample: an unparseable query-generation completion does
not hand the SEARCH stage an empty plan — `json.loads` at line 316 raises
and the exception propagates, so the composed
query-generation-then-search step terminates abnormally and no search
executes. -/
theorem query_parse_failure_counterexample :
    run_qg_then_search (some sample_rstate) (some sample_plan)
      "Sorry, I cannot generate queries."
      (fun _ => Except.ok (SearchResponse.asList [])) "t0" =
      Except.error (PyError.valueError "json.JSONDecodeError") := rfl

/-- C4 (amended): a query-generation parse failure raises
`json.JSONDecodeError` out of the stage: for every search provider the
composed stage returns that error (so SEARCH executes zero searches and
produces no source set), the graph invocation terminates abnormally, and
the top-level CLI surfaces the `ValueError` as a configuration error
rather than a report. -/
theorem query_parse_failure_propagates
    (r : RState) (p : ResearchPlan) (llmContent : String)
    (hparse : json_loads (clean_json_response llmContent) = none)
    (searchFn : JValue → Except String SearchResponse) (now : String) :
    run_qg_then_search (some r) (some p) llmContent searchFn now =
      Except.error (PyError.valueError "json.JSONDecodeError") ∧
    main_handle (Except.error (PyError.valueError "json.JSONDecodeError")) =
      CliOutcome.configError "json.JSONDecodeError" := by
  constructor
  · unfold run_qg_then_search query_generator_node
    rw [hparse]
  · rfl

/-- Witness for C4 at a concrete unparseable completion. -/
theorem query_parse_failure_propagates_witness :
    run_qg_then_search (some sample_rstate) (some sample_plan)
      "no queries today"
      (fun _ => Except.ok (SearchResponse.asList [])) "t0" =
      Except.error (PyError.valueError "json.JSONDecodeError") ∧
    main_handle (Except.error (PyError.valueError "json.JSONDecodeError")) =
      CliOutcome.configError "json.JSONDecodeError" :=
  query_parse_failure_propagates sample_rstate sample_plan "no queries today"
    rfl (fun _ => Except.ok (SearchResponse.asList [])) "t0"

/-- C9 counterexample: with an empty message history the session does not
fail before entering the state machine — `initialize_state` passes the
empty state through, the clarifier runs (and on a proceed verdict routes
onward), and only the PLAN stage raises. -/
theorem empty_input_counterexample :
    initialize_state [] = Except.ok [] ∧
    clarification_node [] ⟨false, "", "Proceeding."⟩ = ClarifyRoute.toResearcher ∧
    researcher_brief [] =
      Except.error (PyError.valueError "No research brief provided") :=
  ⟨rfl, rfl, rfl⟩

/-- C9 (amended): an invocation with no conversation turns is not
rejected at entry — initialization passes it through and CLARIFY runs; on
the proceed path the PLAN stage raises `ValueError("No research brief
provided")` because the brief built from the empty history is empty, and
`main` surfaces that `ValueError` as a configuration/input error, not as
a partial report. -/
theorem empty_input_fails_inside_machine
    (msgs : List Msg) (hempty : msgs = []) (v : ClarifyWithUser)
    (hv : v.need_clarification = false) :
    initialize_state msgs = Except.ok msgs ∧
    clarification_node msgs v = ClarifyRoute.toResearcher ∧
    researcher_brief msgs =
      Except.error (PyError.valueError "No research brief provided") ∧
    main_handle (Except.error (PyError.valueError "No research brief provided")) =
      CliOutcome.configError "No research brief provided" := by
  subst hempty
  refine ⟨rfl, ?_, rfl, rfl⟩
  simp [clarification_node, count_ai_messages, hv]

/-- Witness for C9 (amended) at the empty history with a proceed
verdict. -/
theorem empty_input_fails_inside_machine_witness :
    initialize_state ([] : List Msg) = Except.ok [] ∧
    clarification_node [] ⟨false, "", "ok"⟩ = ClarifyRoute.toResearcher ∧
    researcher_brief [] =
      Except.error (PyError.valueError "No research brief provided") ∧
    main_handle (Except.error (PyError.valueError "No research brief provided")) =
      CliOutcome.configError "No research brief provided" :=
  empty_input_fails_inside_machine [] rfl ⟨false, "", "ok"⟩ rfl

/-! ## Helper lemmas for the extractor round-trip analysis -/

/-- Dropping while over an append whose boundary element fails the
predicate only acts on the left part. -/
theorem dropWhile_append_cons (p : Char → Bool) (xs : List Char) (c : Char)
    (ys : List Char) (hc : p c = false) :
    (xs ++ c :: ys).dropWhile p = xs.dropWhile p ++ c :: ys := by
  induction xs with
  | nil => simp [List.dropWhile, hc]
  | cons x t ih =>
    by_cases hx : p x
    · simpa [List.dropWhile, hx] using ih
    · simp [List.dropWhile, hx]

/-- Right-stripping an append whose boundary element is not whitespace
only acts on the right part. -/
theorem stripR_append_cons (xs : List Char) (c : Char) (ys : List Char)
    (hc : pyWS c = false) :
    stripR (xs ++ (c :: ys)) = xs ++ (c :: stripR ys) := by
  unfold stripR
  have h1 : (xs ++ (c :: ys)).reverse = ys.reverse ++ (c :: xs.reverse) := by
    simp
  rw [h1, dropWhile_append_cons pyWS ys.reverse c xs.reverse hc]
  simp

/-- Full strip of a text sandwiching a brace-delimited block: the strip
acts only on the outer parts. -/
theorem pyStripL_canonical (pre mid post : List Char) :
    pyStripL (pre ++ (obr :: (mid ++ (cbr :: post)))) =
      stripL pre ++ (obr :: (mid ++ (cbr :: stripR post))) := by
  unfold pyStripL stripL
  rw [dropWhile_append_cons pyWS pre obr (mid ++ (cbr :: post)) (by decide)]
  have h2 : pre.dropWhile pyWS ++ (obr :: (mid ++ (cbr :: post))) =
      (pre.dropWhile pyWS ++ (obr :: mid)) ++ (cbr :: post) := by
    simp
  rw [h2, stripR_append_cons _ cbr post (by decide)]
  simp

/-- `dropWhile` removes a prefix: some dropped prefix restores the list. -/
theorem dropWhile_exists_pre (p : Char → Bool) (l : List Char) :
    ∃ t, t ++ l.dropWhile p = l := by
  induction l with
  | nil => exact ⟨[], rfl⟩
  | cons c t ih =>
    by_cases hc : p c
    · obtain ⟨u, hu⟩ := ih
      exact ⟨c :: u, by simp [List.dropWhile, hc, hu]⟩
    · exact ⟨[], by simp [List.dropWhile, hc]⟩

/-- Membership transfers out of `stripL`. -/
theorem mem_of_mem_stripL (a : Char) (l : List Char) (h : a ∈ stripL l) :
    a ∈ l := by
  obtain ⟨t, ht⟩ := dropWhile_exists_pre pyWS l
  rw [← ht]
  exact List.mem_append_right t h

/-- Membership transfers out of `stripR`. -/
theorem mem_of_mem_stripR (a : Char) (l : List Char) (h : a ∈ stripR l) :
    a ∈ l := by
  unfold stripR at h
  rw [List.mem_reverse] at h
  rw [← List.mem_reverse]
  exact mem_of_mem_stripL a l.reverse h

/-- The head of a `dropWhile` result fails the predicate. -/
theorem head_dropWhile_false (p : Char → Bool) (l : List Char) (c : Char)
    (h : (l.dropWhile p).head? = some c) : p c = false := by
  induction l with
  | nil => simp [List.dropWhile] at h
  | cons x t ih =>
    by_cases hx : p x
    · rw [List.dropWhile_cons_of_pos hx] at h
      exact ih h
    · rw [List.dropWhile_cons_of_neg hx] at h
      simp at h
      rw [← h]
      simpa using hx

/-- A list whose head is not a backtick does not start with the fence
marker. -/
theorem fence_marker_not_first (l : List Char)
    (h : ∀ c, l.head? = some c → c ≠ btick) :
    strStartsWith fenceChars l = false := by
  cases l with
  | nil => rfl
  | cons c t =>
    have hc : c ≠ btick := h c rfl
    simp [fenceChars, strStartsWith]
    intro he
    exact absurd he.symm hc

/-- Any list starts with itself as a prefix. -/
theorem strStartsWith_append_self (p l : List Char) :
    strStartsWith p (p ++ l) = true := by
  induction p with
  | nil => rfl
  | cons c t ih => simp [strStartsWith, ih]

/-- `findIdx` over an append whose boundary element is the target and
whose left part avoids it finds the boundary. -/
theorem findIdx_append_cons_self (c : Char) (xs ys : List Char)
    (h : ∀ a ∈ xs, a ≠ c) :
    findIdx c (xs ++ (c :: ys)) = some xs.length := by
  induction xs with
  | nil => simp [findIdx]
  | cons a t ih =>
    have ha : a ≠ c := h a (List.mem_cons_self a t)
    have ht : ∀ b ∈ t, b ≠ c := fun b hb => h b (List.mem_cons_of_mem a hb)
    simp [findIdx, ha, ih ht]

/-- `findIdx` skips a non-matching head with an index shift. -/
theorem findIdx_cons_ne (c a : Char) (l : List Char) (ha : a ≠ c) :
    findIdx c (a :: l) = (findIdx c l).map (· + 1) := by
  simp [findIdx, ha]

/-- `findIdx` over an append whose left part and boundary element avoid
the target searches only the right part, with a shifted index. -/
theorem findIdx_append_cons_ne (c d : Char) (xs ys : List Char)
    (h : ∀ a ∈ xs, a ≠ c) (hd : d ≠ c) :
    findIdx c (xs ++ (d :: ys)) =
      (findIdx c ys).map (fun k => xs.length + 1 + k) := by
  induction xs with
  | nil =>
    rw [List.nil_append, findIdx_cons_ne c d ys hd]
    cases findIdx c ys with
    | none => rfl
    | some k =>
      have harith : k + 1 = List.length ([] : List Char) + 1 + k := by
        simp; omega
      simpa using congrArg some harith
  | cons a t ih =>
    have ha : a ≠ c := h a (List.mem_cons_self a t)
    have ht : ∀ b ∈ t, b ≠ c := fun b hb => h b (List.mem_cons_of_mem a hb)
    rw [List.cons_append, findIdx_cons_ne c a _ ha, ih ht]
    cases findIdx c ys with
    | none => rfl
    | some k =>
      have harith : t.length + 1 + k + 1 = (a :: t).length + 1 + k := by
        simp; omega
      simpa using congrArg some harith

/-- `findIdx` misses a value absent from the list. -/
theorem findIdx_eq_none_of_not_mem (c : Char) (l : List Char)
    (h : ∀ a ∈ l, a ≠ c) : findIdx c l = none := by
  induction l with
  | nil => rfl
  | cons a t ih =>
    have ha : a ≠ c := h a (List.mem_cons_self a t)
    have ht : ∀ b ∈ t, b ≠ c := fun b hb => h b (List.mem_cons_of_mem a hb)
    simp [findIdx, ha, ih ht]

/-- A list whose head and last element are not whitespace strips to
itself. -/
theorem pyStripL_eq_self_of (l : List Char)
    (hh : ∀ c, l.head? = some c → pyWS c = false)
    (hl : ∀ c, l.getLast? = some c → pyWS c = false) :
    pyStripL l = l := by
  cases l with
  | nil => rfl
  | cons a t =>
    have ha : pyWS a = false := hh a rfl
    unfold pyStripL stripL
    rw [List.dropWhile_cons_of_neg (by simp [ha])]
    unfold stripR
    cases hrev : (a :: t).reverse with
    | nil => simp at hrev
    | cons g u =>
      have hg : (a :: t).getLast? = some g := by
        rw [← List.head?_reverse, hrev]; rfl
      have hgw : pyWS g = false := hl g hg
      have hstep : List.dropWhile pyWS (g :: u) = g :: u :=
        List.dropWhile_cons_of_neg (by simp [hgw])
      rw [hstep, ← hrev, List.reverse_reverse]

/-- `stripR` keeps a prefix of its input. -/
theorem stripR_front_part (x : List Char) : ∃ u, x = stripR x ++ u := by
  obtain ⟨t, ht⟩ := dropWhile_exists_pre pyWS x.reverse
  refine ⟨t.reverse, ?_⟩
  have h2 := congrArg List.reverse ht
  simpa [stripR] using h2.symm

/-- The head of the full strip fails the whitespace predicate. -/
theorem head_pyStripL_false (l : List Char) (c : Char)
    (h : (pyStripL l).head? = some c) : pyWS c = false := by
  obtain ⟨u, hu⟩ := stripR_front_part (stripL l)
  have hps : pyStripL l = stripR (stripL l) := rfl
  rw [hps] at h
  have hhead : (stripL l).head? = some c := by
    rw [hu]
    cases hx : stripR (stripL l) with
    | nil => rw [hx] at h; simp at h
    | cons b s =>
      rw [hx] at h
      simp at h ⊢
      exact h
  exact head_dropWhile_false pyWS l c hhead

/-- The last element of the full strip fails the whitespace predicate. -/
theorem getLast_pyStripL_false (l : List Char) (c : Char)
    (h : (pyStripL l).getLast? = some c) : pyWS c = false := by
  rw [← List.head?_reverse] at h
  have hrev : (pyStripL l).reverse = (stripL l).reverse.dropWhile pyWS := by
    simp [pyStripL, stripR]
  rw [hrev] at h
  exact head_dropWhile_false pyWS (stripL l).reverse c h

/-- Stripping is idempotent. -/
theorem pyStripL_idem (l : List Char) : pyStripL (pyStripL l) = pyStripL l :=
  pyStripL_eq_self_of (pyStripL l) (head_pyStripL_false l)
    (getLast_pyStripL_false l)

/-- Splitting on newlines never yields an empty chunk list. -/
theorem splitNL_ne_nil (l : List Char) : splitNL l ≠ [] := by
  cases l with
  | nil => simp [splitNL]
  | cons c t =>
    by_cases hc : c = '\n'
    · simp [splitNL, hc]
    · simp only [splitNL, if_neg hc]
      cases splitNL t <;> simp

/-- Splitting distributes over an explicit newline boundary. -/
theorem splitNL_append_newline (xs ys : List Char) :
    splitNL (xs ++ ('\n' :: ys)) = splitNL xs ++ splitNL ys := by
  induction xs with
  | nil => simp [splitNL]
  | cons c t ih =>
    by_cases hc : c = '\n'
    · subst hc
      simp [splitNL, ih]
    · have hL : splitNL ((c :: t) ++ ('\n' :: ys)) =
          (match splitNL (t ++ ('\n' :: ys)) with
           | [] => [[c]]
           | l :: ls => (c :: l) :: ls) := by
        simp [splitNL, hc]
      rw [hL, ih]
      cases hx : splitNL t with
      | nil => exact absurd hx (splitNL_ne_nil t)
      | cons l ls => simp [splitNL, hc, hx]

/-- Joining undoes splitting. -/
theorem joinNL_splitNL (l : List Char) : joinNL (splitNL l) = l := by
  induction l with
  | nil => rfl
  | cons c t ih =>
    by_cases hc : c = '\n'
    · subst hc
      simp only [splitNL, if_pos rfl]
      cases hx : splitNL t with
      | nil => exact absurd hx (splitNL_ne_nil t)
      | cons l0 ls =>
        rw [hx] at ih
        simp [joinNL, ih]
    · simp only [splitNL, if_neg hc]
      cases hx : splitNL t with
      | nil => exact absurd hx (splitNL_ne_nil t)
      | cons l0 ls =>
        rw [hx] at ih
        cases ls with
        | nil => simp [joinNL] at ih ⊢; exact ih
        | cons l1 ls' => simp [joinNL] at ih ⊢; exact ih

/-- The brace-delimited block itself is stable under stripping. -/
theorem pyStripL_block (mid : List Char) :
    pyStripL (obr :: (mid ++ [cbr])) = obr :: (mid ++ [cbr]) := by
  apply pyStripL_eq_self_of
  · intro c hc
    simp only [List.head?_cons, Option.some.injEq] at hc
    rw [← hc]
    decide
  · intro c hc
    rw [show obr :: (mid ++ [cbr]) = (obr :: mid) ++ [cbr] by simp,
      List.getLast?_concat] at hc
    simp only [Option.some.injEq] at hc
    rw [← hc]
    decide

/-- Evaluation of `brace_slice` when the last closing brace is known and
lies past the start index. -/
theorem brace_slice_eval (L : List Char) (ec : Char) (s e : Nat)
    (hc : rfindIdx ec L = some e) (hlt : s < e) :
    brace_slice L s ec = pyStripL (pySlice L s (e + 1)) := by
  unfold brace_slice
  simp only [hc, if_pos hlt]

/-- Evaluation of `clean_braces` when the first opening brace precedes
any opening bracket. -/
theorem clean_braces_eval_br (L : List Char) (s : Nat)
    (ho : findIdx obr L = some s)
    (hk : findIdx obk L = none ∨ ∃ k, findIdx obk L = some k ∧ s ≤ k) :
    clean_braces L = brace_slice L s cbr := by
  unfold clean_braces
  rcases hk with hk | ⟨k, hk, hsk⟩
  · simp only [ho, hk]
  · simp only [ho, hk, if_pos hsk]

/-- The bracket-location step extracts a brace-delimited block whose
left context contains no opening marker and whose right context contains
no closing brace. -/
theorem clean_braces_extracts (pre' mid post' : List Char)
    (h1 : ∀ a ∈ pre', a ≠ obr) (h2 : ∀ a ∈ pre', a ≠ obk)
    (h3 : ∀ a ∈ post', a ≠ cbr) :
    clean_braces (pre' ++ (obr :: (mid ++ (cbr :: post')))) =
      obr :: (mid ++ [cbr]) := by
  have hfo : findIdx obr (pre' ++ (obr :: (mid ++ (cbr :: post')))) =
      some pre'.length :=
    findIdx_append_cons_self obr pre' (mid ++ (cbr :: post')) h1
  have hfk : findIdx obk (pre' ++ (obr :: (mid ++ (cbr :: post')))) =
      (findIdx obk (mid ++ (cbr :: post'))).map (fun k => pre'.length + 1 + k) :=
    findIdx_append_cons_ne obk obr pre' (mid ++ (cbr :: post')) h2 (by decide)
  have hrev : (pre' ++ (obr :: (mid ++ (cbr :: post')))).reverse =
      post'.reverse ++ (cbr :: (mid.reverse ++ (obr :: pre'.reverse))) := by
    simp
  have h3r : ∀ a ∈ post'.reverse, a ≠ cbr := fun a ha =>
    h3 a (List.mem_reverse.mp ha)
  have hfr : findIdx cbr (pre' ++ (obr :: (mid ++ (cbr :: post')))).reverse =
      some post'.length := by
    rw [hrev, findIdx_append_cons_self cbr post'.reverse
      (mid.reverse ++ (obr :: pre'.reverse)) h3r]
    simp
  have hlen : (pre' ++ (obr :: (mid ++ (cbr :: post')))).length =
      pre'.length + mid.length + post'.length + 2 := by
    simp only [List.length_append, List.length_cons]
    omega
  have hrf : rfindIdx cbr (pre' ++ (obr :: (mid ++ (cbr :: post')))) =
      some (pre'.length + mid.length + 1) := by
    unfold rfindIdx
    simp only [hfr, hlen, Option.some.injEq]
    omega
  have hslice : pySlice (pre' ++ (obr :: (mid ++ (cbr :: post'))))
      pre'.length (pre'.length + mid.length + 1 + 1) = obr :: (mid ++ [cbr]) := by
    unfold pySlice
    rw [List.drop_left]
    have harith : pre'.length + mid.length + 1 + 1 - pre'.length =
        mid.length + 1 + 1 := by omega
    rw [harith, List.take_succ_cons]
    congr 1
    rw [List.take_append 1]
    rfl
  have hcase : findIdx obk (pre' ++ (obr :: (mid ++ (cbr :: post')))) = none ∨
      ∃ k, findIdx obk (pre' ++ (obr :: (mid ++ (cbr :: post')))) = some k ∧
        pre'.length ≤ k := by
    rw [hfk]
    cases findIdx obk (mid ++ (cbr :: post')) with
    | none => exact Or.inl rfl
    | some k => exact Or.inr ⟨pre'.length + 1 + k, rfl, by omega⟩
  rw [clean_braces_eval_br _ pre'.length hfo hcase,
    brace_slice_eval _ cbr pre'.length (pre'.length + mid.length + 1) hrf
      (by omega), hslice]
  exact pyStripL_block mid

/-- Dropping whitespace twice is the same as dropping once. -/
theorem dropWhile_pyWS_idem (l : List Char) :
    (l.dropWhile pyWS).dropWhile pyWS = l.dropWhile pyWS := by
  cases hx : l.dropWhile pyWS with
  | nil => rfl
  | cons a t =>
    have ha : pyWS a = false := head_dropWhile_false pyWS l a (by rw [hx]; rfl)
    exact List.dropWhile_cons_of_neg (by simp [ha])

/-- Left stripping is idempotent. -/
theorem stripL_idem (l : List Char) : stripL (stripL l) = stripL l :=
  dropWhile_pyWS_idem l

/-- Right stripping is idempotent. -/
theorem stripR_idem (l : List Char) : stripR (stripR l) = stripR l := by
  unfold stripR
  rw [List.reverse_reverse, dropWhile_pyWS_idem]

/-- Membership transfers out of the full strip. -/
theorem mem_of_mem_pyStripL (a : Char) (l : List Char)
    (h : a ∈ pyStripL l) : a ∈ l :=
  mem_of_mem_stripL a l (mem_of_mem_stripR a (stripL l) h)

/-- Embedded-object extraction: for a brace-delimited block embedded in
surrounding text whose prefix contains no opening brace, opening bracket
or backtick and whose suffix contains no closing brace,
`clean_json_response`'s core returns exactly the block. -/
theorem clean_core_embedded (pre mid post : List Char)
    (hpre : ∀ c ∈ pre, c ≠ obr ∧ c ≠ obk ∧ c ≠ btick)
    (hpost : ∀ c ∈ post, c ≠ cbr) :
    clean_core (pre ++ (obr :: (mid ++ (cbr :: post)))) =
      obr :: (mid ++ [cbr]) := by
  unfold clean_core
  rw [pyStripL_canonical]
  have hfence : strStartsWith fenceChars
      (stripL pre ++ (obr :: (mid ++ (cbr :: stripR post)))) = false := by
    apply fence_marker_not_first
    intro c hc
    cases hx : stripL pre with
    | nil =>
      rw [hx] at hc
      simp at hc
      rw [← hc]
      decide
    | cons a t =>
      rw [hx] at hc
      simp at hc
      have ha : a ∈ pre :=
        mem_of_mem_stripL a pre (by rw [hx]; exact List.mem_cons_self a t)
      rw [← hc]
      exact (hpre a ha).2.2
  have hfbs : fence_block_strip
      (stripL pre ++ (obr :: (mid ++ (cbr :: stripR post)))) =
      stripL pre ++ (obr :: (mid ++ (cbr :: stripR post))) := by
    unfold fence_block_strip
    simp [hfence]
  rw [hfbs]
  have hstrip2 : pyStripL (stripL pre ++ (obr :: (mid ++ (cbr :: stripR post)))) =
      stripL pre ++ (obr :: (mid ++ (cbr :: stripR post))) := by
    rw [pyStripL_canonical, stripL_idem, stripR_idem]
  rw [hstrip2]
  apply clean_braces_extracts
  · intro a ha
    exact (hpre a (mem_of_mem_stripL a pre ha)).1
  · intro a ha
    exact (hpre a (mem_of_mem_stripL a pre ha)).2.1
  · intro a ha
    exact hpost a (mem_of_mem_stripR a post ha)

/-- No-marker case: input containing no opening brace or bracket, whose
stripped form does not begin with a code fence, passes through as its
trimmed self. -/
theorem clean_core_no_markers (l : List Char)
    (h1 : ∀ a ∈ l, a ≠ obr) (h2 : ∀ a ∈ l, a ≠ obk)
    (hnf : strStartsWith fenceChars (pyStripL l) = false) :
    clean_core l = pyStripL l := by
  unfold clean_core
  have hfbs : fence_block_strip (pyStripL l) = pyStripL l := by
    unfold fence_block_strip
    simp [hnf]
  rw [hfbs, pyStripL_idem]
  unfold clean_braces
  rw [findIdx_eq_none_of_not_mem obr _
      (fun a ha => h1 a (mem_of_mem_pyStripL a l ha)),
    findIdx_eq_none_of_not_mem obk _
      (fun a ha => h2 a (mem_of_mem_pyStripL a l ha))]

/-- Fenced-object extraction: a brace-delimited block wrapped alone in a
```json markdown fence is returned exactly by `clean_json_response`'s
core. -/
theorem clean_core_fenced (mid : List Char) :
    clean_core ((fenceChars ++ ('j' :: 's' :: 'o' :: 'n' :: [])) ++
      ('\n' :: ((obr :: (mid ++ [cbr])) ++ ('\n' :: fenceChars)))) =
      obr :: (mid ++ [cbr]) := by
  have hstrip : pyStripL ((fenceChars ++ ('j' :: 's' :: 'o' :: 'n' :: [])) ++
      ('\n' :: ((obr :: (mid ++ [cbr])) ++ ('\n' :: fenceChars)))) =
      (fenceChars ++ ('j' :: 's' :: 'o' :: 'n' :: [])) ++
      ('\n' :: ((obr :: (mid ++ [cbr])) ++ ('\n' :: fenceChars))) := by
    apply pyStripL_eq_self_of
    · intro c hc
      simp [fenceChars] at hc
      rw [← hc]
      decide
    · intro c hc
      rw [← List.head?_reverse] at hc
      simp [fenceChars] at hc
      rw [← hc]
      decide
  have hfen : strStartsWith fenceChars
      ((fenceChars ++ ('j' :: 's' :: 'o' :: 'n' :: [])) ++
        ('\n' :: ((obr :: (mid ++ [cbr])) ++ ('\n' :: fenceChars)))) = true := by
    rw [List.append_assoc]
    exact strStartsWith_append_self _ _
  have hsplit : splitNL ((fenceChars ++ ('j' :: 's' :: 'o' :: 'n' :: [])) ++
      ('\n' :: ((obr :: (mid ++ [cbr])) ++ ('\n' :: fenceChars)))) =
      (fenceChars ++ ('j' :: 's' :: 'o' :: 'n' :: [])) ::
        (splitNL (obr :: (mid ++ [cbr])) ++ [fenceChars]) := by
    rw [splitNL_append_newline, splitNL_append_newline]
    rfl
  have hopen : strStartsWith fenceChars
      (fenceChars ++ ('j' :: 's' :: 'o' :: 'n' :: [])) = true :=
    strStartsWith_append_self _ _
  have hlast : (splitNL (obr :: (mid ++ [cbr])) ++ [fenceChars]).getLast? =
      some fenceChars := List.getLast?_concat _
  have hdl : (splitNL (obr :: (mid ++ [cbr])) ++ [fenceChars]).dropLast =
      splitNL (obr :: (mid ++ [cbr])) := List.dropLast_concat
  have hps : pyStripL fenceChars = fenceChars := by decide
  have hfbs : fence_block_strip ((fenceChars ++ ('j' :: 's' :: 'o' :: 'n' :: [])) ++
      ('\n' :: ((obr :: (mid ++ [cbr])) ++ ('\n' :: fenceChars)))) =
      joinNL (splitNL (obr :: (mid ++ [cbr]))) := by
    unfold fence_block_strip
    simp only [hfen, if_true, hsplit, hopen, hlast, hps, hdl]
  unfold clean_core
  rw [hstrip, hfbs, joinNL_splitNL, pyStripL_block]
  exact clean_braces_extracts [] mid [] (by simp) (by simp) (by simp)

/-- C7 counterexample: the extractor does not survive arbitrary
surrounding text.  For the input `see [1] \x7b"a": 2\x7d` the first JSON
marker is the bracket of `[1]`, so `clean_json_response` returns `[1]` —
not the embedded object — and parsing yields the array `[1]`. -/
theorem extractor_roundtrip_counterexample :
    clean_json_response ("see [1] " ++ "\x7b" ++ "\"a\": 2" ++ "\x7d") = "[1]" ∧
    ("[1]" : String) ≠ "\x7b" ++ "\"a\": 2" ++ "\x7d" ∧
    json_loads "[1]" = some (JValue.jarr [JValue.jnum "1"]) :=
  ⟨rfl, by decide, rfl⟩

/-- C7 (amended): for every valid JSON object string `\x7b…\x7d` embedded
in surrounding text whose prefix contains no `\x7b`, `[` or backtick and
whose suffix contains no `\x7d`, extraction (clean then parse) returns
that object unchanged; the same holds for the object wrapped alone in a
```json markdown fence; and for input containing no brace or bracket
whose stripped form does not begin with a code fence, the extractor
returns the trimmed input unchanged. -/
theorem extractor_roundtrip_amended
    (pre mid post : List Char) (v : JValue) (plain : String)
    (hpre : ∀ c ∈ pre, c ≠ obr ∧ c ≠ obk ∧ c ≠ btick)
    (hpost : ∀ c ∈ post, c ≠ cbr)
    (hobj : json_loads (String.mk (obr :: (mid ++ [cbr]))) = some v)
    (hplain1 : ∀ c ∈ plain.data, c ≠ obr ∧ c ≠ obk)
    (hplainf : strStartsWith fenceChars (pyStripL plain.data) = false) :
    clean_json_response (String.mk (pre ++ (obr :: (mid ++ (cbr :: post))))) =
      String.mk (obr :: (mid ++ [cbr])) ∧
    json_loads (clean_json_response
      (String.mk (pre ++ (obr :: (mid ++ (cbr :: post)))))) = some v ∧
    clean_json_response (String.mk ((fenceChars ++ ('j' :: 's' :: 'o' :: 'n' :: [])) ++
      ('\n' :: ((obr :: (mid ++ [cbr])) ++ ('\n' :: fenceChars))))) =
      String.mk (obr :: (mid ++ [cbr])) ∧
    json_loads (clean_json_response
      (String.mk ((fenceChars ++ ('j' :: 's' :: 'o' :: 'n' :: [])) ++
        ('\n' :: ((obr :: (mid ++ [cbr])) ++ ('\n' :: fenceChars)))))) = some v ∧
    clean_json_response plain = pyStrip plain := by
  have h1 : clean_json_response (String.mk (pre ++ (obr :: (mid ++ (cbr :: post))))) =
      String.mk (obr :: (mid ++ [cbr])) :=
    congrArg String.mk (clean_core_embedded pre mid post hpre hpost)
  have h3 : clean_json_response (String.mk ((fenceChars ++ ('j' :: 's' :: 'o' :: 'n' :: [])) ++
      ('\n' :: ((obr :: (mid ++ [cbr])) ++ ('\n' :: fenceChars))))) =
      String.mk (obr :: (mid ++ [cbr])) :=
    congrArg String.mk (clean_core_fenced mid)
  refine ⟨h1, ?_, h3, ?_, ?_⟩
  · rw [h1]; exact hobj
  · rw [h3]; exact hobj
  · exact congrArg String.mk
      (clean_core_no_markers plain.data (fun a ha => (hplain1 a ha).1)
        (fun a ha => (hplain1 a ha).2) hplainf)

/-- Witness for C7 (amended) at a concrete object with prefix text,
suffix text, a fenced variant, and a marker-free input. -/
theorem extractor_roundtrip_amended_witness :
    clean_json_response (String.mk ("Answer: ".data ++
      (obr :: ("\"a\": 1".data ++ (cbr :: " ok.".data))))) =
      String.mk (obr :: ("\"a\": 1".data ++ [cbr])) ∧
    json_loads (clean_json_response (String.mk ("Answer: ".data ++
      (obr :: ("\"a\": 1".data ++ (cbr :: " ok.".data)))))) =
      some (JValue.jobj [("a", JValue.jnum "1")]) ∧
    clean_json_response (String.mk ((fenceChars ++ ('j' :: 's' :: 'o' :: 'n' :: [])) ++
      ('\n' :: ((obr :: ("\"a\": 1".data ++ [cbr])) ++ ('\n' :: fenceChars))))) =
      String.mk (obr :: ("\"a\": 1".data ++ [cbr])) ∧
    json_loads (clean_json_response
      (String.mk ((fenceChars ++ ('j' :: 's' :: 'o' :: 'n' :: [])) ++
        ('\n' :: ((obr :: ("\"a\": 1".data ++ [cbr])) ++ ('\n' :: fenceChars)))))) =
      some (JValue.jobj [("a", JValue.jnum "1")]) ∧
    clean_json_response "plain text answer" = pyStrip "plain text answer" :=
  extractor_roundtrip_amended "Answer: ".data "\"a\": 1".data " ok.".data
    (JValue.jobj [("a", JValue.jnum "1")]) "plain text answer"
    (by decide) (by decide) rfl (by decide) (by decide)

end DeepResearch
